import Mathlib

/-
Shallow embedding of the `kapi` Go library (a generics-based convenience
layer over a Kubernetes controller framework), together with proofs about
its behaviour.  Pure functions of the source are translated to Lean
functions; the external store, the controller framework and the panics of
the source are made explicit as values of sum types.
-/

namespace Kapi

/-! ## Event classification (src/reconciler.go) -/

/-- `ResourceEventType`: the events that can affect a k8s resource, as passed
to the event filter (created = 0, updated = 1, deleted = 2). -/
inductive ResourceEventType
  | created
  | updated
  | deleted
deriving DecidableEq, Repr

/-- `ReconcileEventType`: the summarised event type passed to a
`ReconcilerFunc` (createdOrUpdated = 0, deleted = 1). -/
inductive ReconcileEventType
  | createdOrUpdated
  | deleted
deriving DecidableEq, Repr

/-! ## Client.Get outcomes (src/client.go)

`Client.Get` allocates a fresh zero value of the item type and populates it
from the store; the store call can succeed, fail with a not-found error
(`apierrors.IsNotFound`), or fail with any other error.  The allocated
resource is returned in every case. -/

/-- Outcome of the store call inside `Client.Get`, as seen by a caller. -/
inductive GetResult (T : Type)
  | found (t : T)
  | errNotFound
  | errOther (e : String)
deriving DecidableEq, Repr

/-! ## reconciler.Reconcile (src/reconciler.go, lines 112-142) -/

/-- Observable outcome of one invocation of `reconciler[T].Reconcile`:
the log lines emitted (level, message), the invocations of the configured
`ReconcilerFunc` (event type and resource passed), and the returned error. -/
structure ReconcileOutcome (T : Type) where
  logs : List (Nat × String)
  callbackCalls : List (ReconcileEventType × T)
  returnedErr : Option String
deriving DecidableEq, Repr

/-- Embedding of `reconciler[T].Reconcile`.  `zeroT` is the fresh zero value
allocated by the internal cache-backed `Client.Get`; `get` is the outcome of
that Get; `rf` is the configured `ReconcilerFunc` (`none` = success,
`some e` = error `e`). -/
def reconcile {T : Type} (zeroT : T) (get : GetResult T)
    (rf : ReconcileEventType → T → Option String) : ReconcileOutcome T :=
  match get with
  | .errOther e =>
      { logs := [(0, "kapi.reconciler invoked for invalid resource")]
        callbackCalls := []
        returnedErr := some e }
  | .errNotFound =>
      let evt := ReconcileEventType.deleted
      let baseLogs := [(1, "kapi.reconciler invoked"), (3, "kapi.reconciler invoked")]
      match rf evt zeroT with
      | some e =>
          { logs := baseLogs ++ [(0, "kapi.reconciler unable to invoke reconciler-func")]
            callbackCalls := [(evt, zeroT)]
            returnedErr := some ("unable to execute configured reconcilerfunc. " ++ e) }
      | none =>
          { logs := baseLogs
            callbackCalls := [(evt, zeroT)]
            returnedErr := none }
  | .found t =>
      let evt := ReconcileEventType.createdOrUpdated
      let baseLogs := [(1, "kapi.reconciler invoked"), (3, "kapi.reconciler invoked")]
      match rf evt t with
      | some e =>
          { logs := baseLogs ++ [(0, "kapi.reconciler unable to invoke reconciler-func")]
            callbackCalls := [(evt, t)]
            returnedErr := some ("unable to execute configured reconcilerfunc. " ++ e) }
      | none =>
          { logs := baseLogs
            callbackCalls := [(evt, t)]
            returnedErr := none }

/-! ## The event filter wiring of AddReconciler (src/reconciler.go, lines 69-97) -/

/-- An update event as delivered by the framework: the object before and
after the update (`event.UpdateEvent.ObjectOld` / `.ObjectNew`). -/
structure UpdateEvent (O : Type) where
  objectOld : O
  objectNew : O
deriving DecidableEq, Repr

/-- The three predicate functions `AddReconciler` installs via
`WithEventFilter` (`predicate.Funcs`). -/
structure EventFilter (O : Type) where
  createFunc : O → Bool
  updateFunc : UpdateEvent O → Bool
  deleteFunc : O → Bool

/-- `AddReconciler` replaces a nil `ReconcilerFilterFunc` with one that
admits every event. -/
def effectiveFilter {O : Type} (f : Option (ResourceEventType → O → Bool)) :
    ResourceEventType → O → Bool :=
  match f with
  | none => fun _ _ => true
  | some g => g

/-- The logging wrapper `reconcilerFilterFuncWithLogging` is transparent with
respect to the admit/drop decision: it returns exactly what the wrapped
filter returns (it only adds trace logs). -/
def filterWithLogging {O : Type} (f : ResourceEventType → O → Bool) :
    ResourceEventType → O → Bool :=
  fun e o => if f e o then true else false

/-- Embedding of the `predicate.Funcs` literal built inside `AddReconciler`:
the create and delete predicates pass the event's object; the update
predicate passes `e.ObjectOld`. -/
def mkEventFilter {O : Type} (f : Option (ResourceEventType → O → Bool)) :
    EventFilter O :=
  let g := filterWithLogging (effectiveFilter f)
  { createFunc := fun o => g ResourceEventType.created o
    updateFunc := fun e => g ResourceEventType.updated e.objectOld
    deleteFunc := fun o => g ResourceEventType.deleted o }

/-- One event delivery end to end: the event predicate decides whether the
framework forwards the event to the work queue; if (and only if) it does,
`Reconcile` runs once for it.  Returns the reconcile callback invocations
performed for this delivery. -/
def deliverEvent {T : Type} (f : Option (ResourceEventType → T → Bool))
    (evt : ResourceEventType) (obj : T) (zeroT : T) (get : GetResult T)
    (rf : ReconcileEventType → T → Option String) :
    List (ReconcileEventType × T) :=
  let admitted :=
    match evt with
    | .created => (mkEventFilter f).createFunc obj
    | .updated => (mkEventFilter f).updateFunc { objectOld := obj, objectNew := obj }
    | .deleted => (mkEventFilter f).deleteFunc obj
  if admitted then (reconcile zeroT get rf).callbackCalls else []

/-! ## Client.Update (src/client.go, lines 44-63) -/

/-- A request issued to the underlying store by `Client.Update`. -/
inductive StoreReq
  | fullUpdate
  | subUpdate (s : String)
deriving DecidableEq, Repr

/-- The subresource-update loop of `Client.Update`: issues one
subresource-scoped request per name in order, stopping at the first failure
and wrapping it.  `subResult s` is the store's answer for subresource `s`
(`none` = success).  Returns the requests issued and the returned error. -/
def updateSubresources (subResult : String → Option String) :
    List String → List StoreReq × Option String
  | [] => ([], none)
  | s :: rest =>
      match subResult s with
      | some e => ([.subUpdate s], some ("unable to update subresource " ++ s ++ ". " ++ e))
      | none =>
          let (reqs, r) := updateSubresources subResult rest
          (.subUpdate s :: reqs, r)

/-- Embedding of `Client.Update`.  `getClientErr` is the error from the lazy
client acquisition (`none` = a client was obtained); `fullResult` is the
store's answer to a full-object update; `subResult` the store's answers to
subresource updates; `subs` the subresource names passed. -/
def clientUpdate (getClientErr : Option String) (fullResult : Option String)
    (subResult : String → Option String) (subs : List String) :
    List StoreReq × Option String :=
  match getClientErr with
  | some e => ([], some e)
  | none =>
      match subs with
      | [] => ([StoreReq.fullUpdate], fullResult)
      | s :: rest => updateSubresources subResult (s :: rest)

/-! ## Cluster state and lifecycle (src/kapi.go, src/reconciler.go, src/hook.go) -/

/-- The mutable state of a `Cluster`: its single `connected` flag
(the manager itself is external). -/
structure ClusterState where
  connected : Bool
deriving DecidableEq, Repr

/-- The steps `Cluster.Connect` performs, in order, when it does not panic:
it sets the flag, then starts the manager (which blocks). -/
inductive ConnectStep
  | setConnected
  | managerStart
deriving DecidableEq, Repr

/-- Outcome of a call that either panics or returns a value. -/
inductive CallOutcome (α : Type)
  | panicked (msg : String)
  | returned (a : α)
deriving DecidableEq, Repr

/-- Embedding of `Cluster.Connect`: panics if `connected` is already true;
otherwise sets `connected := true` and then starts the manager, wrapping a
start error.  Returns the new state, the ordered steps performed, and the
outcome.  `startErr` is the result of `manager.Start` (`none` = clean
return on context cancellation). -/
def connect (st : ClusterState) (startErr : Option String) :
    ClusterState × List ConnectStep × CallOutcome (Option String) :=
  if st.connected then
    (st, [], .panicked "kapi.cluster.connect called more than once")
  else
    ({ st with connected := true }, [ConnectStep.setConnected, ConnectStep.managerStart],
      .returned (startErr.map
        (fun e => "unable to start controller-runtime.manager for kapi.cluster. " ++ e)))

/-- Embedding of the registration/return part of `AddReconciler`
(src/reconciler.go, lines 59-110): panics if the cluster is connected,
otherwise registers a controller; a controller-registration failure
`ctrlErr` is wrapped and returned. -/
def addReconciler (st : ClusterState) (ctrlErr : Option String) :
    CallOutcome (Option String) :=
  if st.connected then
    .panicked "kapi.add-reconciler must be called before kapi.cluster.connect"
  else
    .returned (ctrlErr.map (fun e => "unable to configure kapi.reconciler. " ++ e))

/-- Embedding of `AddHook` (src/hook.go, lines 32-51): panics if the cluster
is connected, otherwise registers the webhook and returns nil (the result of
`Complete()` is discarded by the source). -/
def addHook (st : ClusterState) : CallOutcome (Option String) :=
  if st.connected then
    .panicked "kapi.add-hook must be called before kapi.cluster.connect"
  else
    .returned none

/-- The operations of the library that touch a `ClusterState`, used to show
the `connected` flag is never reset. -/
inductive ClusterOp
  | connectOp (startErr : Option String)
  | addReconcilerOp (ctrlErr : Option String)
  | addHookOp
  | clientGetClientOp
deriving DecidableEq, Repr

/-- State transition of each operation.  Only `Connect` writes the flag;
every other operation reads it (possibly panicking). -/
def applyOp (st : ClusterState) : ClusterOp → ClusterState
  | .connectOp startErr => (connect st startErr).1
  | .addReconcilerOp _ => st
  | .addHookOp => st
  | .clientGetClientOp => st

/-! ## Hook methods (src/hook.go, lines 53-116)

An incoming admission object is untyped (`runtime.Object`); the hook methods
assert it down to the hook's declared resource type `T`.  A value that is
not a `T` is kept abstract as its concrete type name. -/

/-- An untyped admission object: either a value of the hook's resource type
`T`, or some other type known only by name. -/
inductive Untyped (T : Type)
  | typed (t : T)
  | otherType (tyName : String)
deriving DecidableEq, Repr

/-- The type assertion `obj.(T)`. -/
def asTyped {T : Type} : Untyped T → Option T
  | .typed t => some t
  | .otherType _ => none

/-- The `%T` of an untyped object relative to the declared resource type
name `tyName`. -/
def uTypeName {T : Type} (tyName : String) : Untyped T → String
  | .typed _ => tyName
  | .otherType n => n

/-- Observable result of one hook method invocation: admission warnings,
returned error, and the arguments of the user-callback invocations made
(for `ValidateUpdate`, the (old, new) pairs; for the single-object methods a
singleton list). -/
structure HookOutcome (A : Type) where
  warnings : List String
  err : Option String
  callbackCalls : List A
deriving DecidableEq, Repr

/-- Embedding of `Hook.ValidateUpdate`: nil callback means immediate
success; otherwise both objects are asserted, and either assertion failing
yields one combined error naming both concrete types (new first, then old),
without invoking the callback.  The result is always a `returned` value:
this method never panics. -/
def validateUpdate {T : Type} (tyName : String)
    (f : Option (T → T → List String × Option String))
    (oldObj newObj : Untyped T) : CallOutcome (HookOutcome (T × T)) :=
  match f with
  | none => .returned { warnings := [], err := none, callbackCalls := [] }
  | some g =>
      match asTyped newObj, asTyped oldObj with
      | some newResource, some oldResource =>
          let (w, e) := g oldResource newResource
          .returned { warnings := w, err := e, callbackCalls := [(oldResource, newResource)] }
      | _, _ =>
          .returned
            { warnings := []
              err := some ("update validator for custom resource was passed types of "
                ++ uTypeName tyName newObj ++ " and " ++ uTypeName tyName oldObj)
              callbackCalls := [] }

/-- Embedding of `Hook.Default`: nil callback means no-op; a failed type
assertion yields a returned error without invoking the callback.  Never
panics. -/
def defaultHook {T : Type} (tyName : String) (f : Option (T → Option String))
    (obj : Untyped T) : CallOutcome (HookOutcome T) :=
  match f with
  | none => .returned { warnings := [], err := none, callbackCalls := [] }
  | some g =>
      match asTyped obj with
      | some resource =>
          .returned { warnings := [], err := g resource, callbackCalls := [resource] }
      | none =>
          .returned
            { warnings := []
              err := some ("defaulter for custom resource was passed type of "
                ++ uTypeName tyName obj)
              callbackCalls := [] }

/-! ## Client observability (src/client.go, lines 30-106 and 140-154)

`Client.observe` starts a metric timer and emits a summary log (level 1)
immediately; the closure it returns — run deferred, i.e. on every return
path — emits a trace log (level 3, carrying the full resource payload) and
then stops the timer with `resource_type` and `resource_action` labels. -/

/-- One observable event during a client operation. -/
inductive ObsEvent
  | timerStart (metric : String)
  | logEvent (level : Nat) (logType : String) (hasPayload : Bool)
  | storeCall (act : String)
  | timerStop (labels : List (String × String))
deriving DecidableEq, Repr

/-- Embedding of one `Client` operation (Create/Update/Delete/Get/List) with
its `observe` wrapper.  `typeName` is the item's concrete type name, `act`
the action name; `getClientErr` is the client-acquisition result and
`storeErr` the store call result.  Returns the ordered event trace and the
returned error. -/
def clientOp (typeName act : String) (getClientErr : Option String)
    (storeErr : Option String) : List ObsEvent × Option String :=
  let before := [ObsEvent.timerStart "kapi_client",
    ObsEvent.logEvent 1 "kapi_client_summary" false]
  let after := [ObsEvent.logEvent 3 "kapi_client_trace" true,
    ObsEvent.timerStop [("resource_type", typeName), ("resource_action", act)]]
  match getClientErr with
  | some e => (before ++ after, some e)
  | none => (before ++ [ObsEvent.storeCall act] ++ after, storeErr)

/-- Index of the first event satisfying `p`, if any. -/
def idxOf (p : ObsEvent → Bool) : List ObsEvent → Option Nat
  | [] => none
  | e :: rest => if p e then some 0 else (idxOf p rest).map (· + 1)

/-- Recognises the trace-level log event. -/
def isTraceLog : ObsEvent → Bool
  | .logEvent 3 "kapi_client_trace" true => true
  | _ => false

/-- Recognises the timer-stop event. -/
def isTimerStop : ObsEvent → Bool
  | .timerStop _ => true
  | _ => false

/-- Recognises the store call. -/
def isStoreCall : ObsEvent → Bool
  | .storeCall _ => true
  | _ => false

/-- Recognises the summary-level log event. -/
def isSummaryLog : ObsEvent → Bool
  | .logEvent 1 "kapi_client_summary" false => true
  | _ => false

/-! ## The logr adapter (src/internal/logconv/logconv.go) -/

/-- `LogrWrapper` as modelled state: the accumulated attribute pairs.  The
context and the wrapped log function are the same for every derived
instance. -/
structure LogrWrapper where
  attrs : List String
deriving DecidableEq, Repr

/-- One call to the underlying log function: level, message, and the
attribute list passed. -/
structure Emitted where
  level : Nat
  msg : String
  attrs : List String
deriving DecidableEq, Repr

/-- The wrapped log function installed by `NewLogrWrapper` appends the
fixed pair ("dep", "ctrl-runtime") to every call's attributes. -/
def logrLf (level : Nat) (msg : String) (attrs : List String) : Emitted :=
  { level := level, msg := msg, attrs := attrs ++ ["dep", "ctrl-runtime"] }

/-- `LogrWrapper.Info`: ignores the logr verbosity argument, always emits at
level 2, and passes only the per-call attributes — `l.attrs` is not used. -/
def LogrWrapper.info (_l : LogrWrapper) (_level : Nat) (msg : String)
    (attr : List String) : Emitted :=
  logrLf 2 msg attr

/-- `LogrWrapper.Error`: emits at level 0 with the per-call attributes plus
an ("error", err) pair — `l.attrs` is not used. -/
def LogrWrapper.error (_l : LogrWrapper) (err : String) (msg : String)
    (attr : List String) : Emitted :=
  logrLf 0 msg (attr ++ ["error", err])

/-- `LogrWrapper.WithValues`: returns a fresh instance whose attributes are
the parent's followed by the new ones; the parent is unchanged. -/
def LogrWrapper.withValues (l : LogrWrapper) (attr : List String) : LogrWrapper :=
  { attrs := l.attrs ++ attr }

/-- `LogrWrapper.WithName`: per the source, `WithValues("name", name)`. -/
def LogrWrapper.withName (l : LogrWrapper) (name : String) : LogrWrapper :=
  l.withValues ["name", name]

/-! ## The Resource Envelope and its wire format (src/client.go, lines 195-238)

`CustomResource[TSpec, TStatus, TScale]` carries inline `TypeMeta`
(kind, apiVersion — strings with omitempty), `metadata` (an `ObjectMeta`
struct: the omitempty tag never omits a struct value, so the key is always
present), and the three payload fields, each tagged omitempty.
`DeepCopyObject` is `json.Marshal` followed by `json.Unmarshal` into a
fresh zero value of the same instantiation.

The wire format is modelled structurally.  Each payload type-parameter is
modelled by a `Codec`: its Go JSON encoding, decoding, zero value, and
Go's `omitempty` emptiness test.  `FieldUndefined` (= `*struct pointer`,
zero value nil) gets the concrete codec `undefinedCodec`. -/

/-- Structural model of a JSON document. -/
inductive Json
  | null
  | str (s : String)
  | num (n : Int)
  | obj (fields : List (String × Json))
  | arr (elems : List Json)

/-- How one Go payload type behaves under `encoding/json`. -/
structure Codec (α : Type) where
  enc : α → Json
  dec : Json → Option α
  isEmptyVal : α → Bool
  zero : α

/-- A codec is faithful when decoding inverts encoding (the de-facto
contract for payload structs with exported, json-tagged fields). -/
def Codec.Faithful {α : Type} (c : Codec α) : Prop :=
  ∀ a, c.dec (c.enc a) = some a

/-- `FieldUndefined` is `*struct pointer`; its values are nil (`none`) or a
pointer to the empty struct (`some ()`); the zero value is nil, and
omitempty treats exactly nil as empty. -/
def undefinedCodec : Codec (Option Unit) :=
  { enc := fun a => match a with | none => Json.null | some _ => Json.obj []
    dec := fun j => match j with
      | Json.null => some none
      | Json.obj [] => some (some ())
      | _ => none
    isEmptyVal := fun a => match a with | none => true | some _ => false
    zero := none }

/-- The slice of `metav1.ObjectMeta` relevant here: name and namespace,
both strings with omitempty (zero value empty string, so omission is
lossless). -/
structure ObjectMeta where
  name : String
  nspace : String
deriving DecidableEq, Repr

/-- The `CustomResource` envelope over modelled payload types. -/
structure CustomResource (S T U : Type) where
  kind : String
  apiVersion : String
  metadata : ObjectMeta
  spec : S
  status : T
  scale : U
deriving DecidableEq, Repr

/-- A string field with omitempty: emitted only when non-empty. -/
def encStrField (key s : String) : List (String × Json) :=
  if s = "" then [] else [(key, Json.str s)]

/-- `json.Marshal` of `ObjectMeta`. -/
def encodeMeta (m : ObjectMeta) : Json :=
  Json.obj (encStrField "name" m.name ++ encStrField "namespace" m.nspace)

/-- A payload field with omitempty: emitted only when Go deems the value
non-empty. -/
def encPayloadField {α : Type} (c : Codec α) (key : String) (a : α) :
    List (String × Json) :=
  if c.isEmptyVal a then [] else [(key, c.enc a)]

/-- `json.Marshal` of a `CustomResource`: inline TypeMeta, then metadata
(always present), then the payload fields in declaration order, each
subject to omitempty. -/
def encodeCR {S T U : Type} (cs : Codec S) (ct : Codec T) (cu : Codec U)
    (r : CustomResource S T U) : Json :=
  Json.obj (encStrField "kind" r.kind ++ encStrField "apiVersion" r.apiVersion
    ++ [("metadata", encodeMeta r.metadata)]
    ++ encPayloadField cs "spec" r.spec
    ++ encPayloadField ct "status" r.status
    ++ encPayloadField cu "scale" r.scale)

/-- First value bound to `key` in a JSON object's field list. -/
def lookupField (key : String) : List (String × Json) → Option Json
  | [] => none
  | (k, v) :: rest => if k = key then some v else lookupField key rest

/-- Whether the document (an object) carries `key` as a populated field. -/
def hasField (j : Json) (key : String) : Bool :=
  match j with
  | Json.obj fs => (lookupField key fs).isSome
  | _ => false

/-- `json.Unmarshal` of a string field into a fresh zero value: an absent
key leaves the empty string; a present key must be a string. -/
def decStrField (key : String) (fs : List (String × Json)) : Option String :=
  match lookupField key fs with
  | none => some ""
  | some (Json.str s) => some s
  | some _ => none

/-- `json.Unmarshal` of `ObjectMeta` into a fresh zero value. -/
def decodeMeta (j : Json) : Option ObjectMeta :=
  match j with
  | Json.obj fs => do
      let name ← decStrField "name" fs
      let nspace ← decStrField "namespace" fs
      pure { name := name, nspace := nspace }
  | _ => none

/-- `json.Unmarshal` of a payload field into a fresh zero value: an absent
key leaves the codec's zero value. -/
def decPayloadField {α : Type} (c : Codec α) (key : String)
    (fs : List (String × Json)) : Option α :=
  match lookupField key fs with
  | none => some c.zero
  | some j => c.dec j

/-- `json.Unmarshal` of a wire document into a fresh zero-valued
`CustomResource` of the same instantiation. -/
def decodeCR {S T U : Type} (cs : Codec S) (ct : Codec T) (cu : Codec U)
    (j : Json) : Option (CustomResource S T U) :=
  match j with
  | Json.obj fs => do
      let kind ← decStrField "kind" fs
      let apiVersion ← decStrField "apiVersion" fs
      let metadata ←
        match lookupField "metadata" fs with
        | none => some { name := "", nspace := "" }
        | some jm => decodeMeta jm
      let spec ← decPayloadField cs "spec" fs
      let status ← decPayloadField ct "status" fs
      let scale ← decPayloadField cu "scale" fs
      pure { kind := kind, apiVersion := apiVersion, metadata := metadata,
             spec := spec, status := status, scale := scale }
  | _ => none

/-- `DeepCopyObject` for `CustomResource`: marshal, then unmarshal into a
fresh zero value of the same concrete generic instantiation. -/
def deepCopyCR {S T U : Type} (cs : Codec S) (ct : Codec T) (cu : Codec U)
    (r : CustomResource S T U) : Option (CustomResource S T U) :=
  decodeCR cs ct cu (encodeCR cs ct cu r)

/-- The event trace of one client operation. -/
def clientOpEvents (typeName act : String) (getClientErr storeErr : Option String) :
    List ObsEvent :=
  (clientOp typeName act getClientErr storeErr).1

/-- A subresource-result table for concrete examples: "scale" fails with
"boom", everything else succeeds. -/
def srEx (s : String) : Option String :=
  if s = "scale" then some "boom" else none

/-- An all-undefined envelope for concrete examples. -/
def crEx : CustomResource (Option Unit) (Option Unit) (Option Unit) :=
  { kind := "ConfigAudit", apiVersion := "kapi-example/v1",
    metadata := { name := "target", nspace := "kapi-example" },
    spec := none, status := none, scale := none }

/-! ## Theorems -/

/-- The `undefinedCodec` decodes whatever it encodes. -/
theorem undefinedCodec_faithful : undefinedCodec.Faithful := by
  intro a
  match a with
  | none => rfl
  | some () => rfl

/-- Helper: the subresource loop with all-successful results issues one
request per name, in order, and returns no error. -/
theorem updateSubresources_all_ok (subResult : String → Option String) :
    ∀ subs : List String, (∀ x ∈ subs, subResult x = none) →
      updateSubresources subResult subs = (subs.map StoreReq.subUpdate, none) := by
  intro subs
  induction subs with
  | nil => intro _; rfl
  | cons s rest ih =>
      intro h
      have hs : subResult s = none := h s (by simp)
      have hrest := ih (fun x hx => h x (by simp [hx]))
      simp [updateSubresources, hs, hrest]

/-- Helper: the subresource loop stops at the first failing name and wraps
that failure. -/
theorem updateSubresources_first_fail (subResult : String → Option String)
    (s e : String) (hs : subResult s = some e) :
    ∀ (pre : List String), (∀ x ∈ pre, subResult x = none) → ∀ (post : List String),
      updateSubresources subResult (pre ++ s :: post) =
        ((pre ++ [s]).map StoreReq.subUpdate,
          some ("unable to update subresource " ++ s ++ ". " ++ e)) := by
  intro pre
  induction pre with
  | nil =>
      intro _ post
      simp [updateSubresources, hs]
  | cons p rest ih =>
      intro h post
      have hp : subResult p = none := h p (by simp)
      have hrest := ih (fun x hx => h x (by simp [hx])) post
      simp [updateSubresources, hp, hrest]

/-- Helper: the logging wrapper around a filter does not change its
admit/drop decision. -/
theorem filterWithLogging_eq {O : Type} (f : ResourceEventType → O → Bool) :
    filterWithLogging f = f := by
  funext e o
  cases h : f e o <;> simp [filterWithLogging, h]

/-- Helper: the reconcile callback invocations as a function of the Get
outcome. -/
theorem reconcile_callbackCalls {T : Type} (zeroT : T) (get : GetResult T)
    (rf : ReconcileEventType → T → Option String) :
    (reconcile zeroT get rf).callbackCalls =
      match get with
      | GetResult.found t => [(ReconcileEventType.createdOrUpdated, t)]
      | GetResult.errNotFound => [(ReconcileEventType.deleted, zeroT)]
      | GetResult.errOther _ => [] := by
  cases get with
  | found t =>
      cases hrf : rf ReconcileEventType.createdOrUpdated t <;> simp [reconcile, hrf]
  | errNotFound =>
      cases hrf : rf ReconcileEventType.deleted zeroT <;> simp [reconcile, hrf]
  | errOther e => simp [reconcile]

/-- Claim C1: for every invocation of the registered reconcile entry point,
a not-found failure of the internal cache-backed Get classifies the event as
Deleted and invokes the reconcile callback once with the zero-valued
resource; any other Get failure is returned with an error-level log and the
callback is never invoked; a successful Get classifies the event as
CreatedOrUpdated and invokes the callback once with the fetched resource. -/
theorem c1_reconcile_classification {T : Type} (zeroT : T)
    (rf : ReconcileEventType → T → Option String) (e : String) (t : T) :
    (reconcile zeroT GetResult.errNotFound rf).callbackCalls
        = [(ReconcileEventType.deleted, zeroT)]
    ∧ (reconcile zeroT (GetResult.errOther e) rf).callbackCalls = []
    ∧ (reconcile zeroT (GetResult.errOther e) rf).returnedErr = some e
    ∧ (0, "kapi.reconciler invoked for invalid resource")
        ∈ (reconcile zeroT (GetResult.errOther e) rf).logs
    ∧ (reconcile zeroT (GetResult.found t) rf).callbackCalls
        = [(ReconcileEventType.createdOrUpdated, t)] := by
  refine ⟨?_, ?_, ?_, ?_, ?_⟩
  · cases hrf : rf ReconcileEventType.deleted zeroT <;> simp [reconcile, hrf]
  · simp [reconcile]
  · simp [reconcile]
  · simp [reconcile]
  · cases hrf : rf ReconcileEventType.createdOrUpdated t <;> simp [reconcile, hrf]

/-- Claim C2 counterexample: an event admitted by an always-true filter for
which the internal Get fails with a non-not-found error results in zero
invocations of the reconcile callback for that delivery, refuting "if the
filter returns true ... the callback is invoked exactly once for that
event". -/
theorem c2_counterexample :
    ¬ (deliverEvent (T := Unit) (some (fun _ _ => true)) ResourceEventType.created
        () () (GetResult.errOther "boom") (fun _ _ => none)).length = 1 := by
  decide

/-- Claim C2 (amended): for every event delivered to a reconciler, the
callback is invoked exactly once when the effective filter admits the event
and the internal Get succeeds or reports not-found; it is never invoked when
the filter returns false, or when the admitted event's Get fails with any
other error (that error being returned for the framework to requeue).  A
nil filter admits every event. -/
theorem c2_filter_gates_callback {T : Type}
    (f : Option (ResourceEventType → T → Bool)) (evt : ResourceEventType)
    (obj zeroT : T) (get : GetResult T)
    (rf : ReconcileEventType → T → Option String) :
    (deliverEvent f evt obj zeroT get rf).length =
      (if effectiveFilter f evt obj then
        match get with
        | GetResult.errOther _ => 0
        | _ => 1
      else 0)
    ∧ deliverEvent none evt obj zeroT get rf = (reconcile zeroT get rf).callbackCalls := by
  constructor
  · cases evt <;>
      simp only [deliverEvent, mkEventFilter, filterWithLogging_eq] <;>
      split <;>
      rename_i hf <;>
      simp [hf, reconcile_callbackCalls] <;>
      cases get <;> simp
  · cases evt <;>
      simp [deliverEvent, mkEventFilter, filterWithLogging_eq, effectiveFilter]

/-- Claim C3: for every `Client.Update` call that obtains a store client,
zero subresource names issue exactly one full-object update; with N names,
subresource-scoped updates are issued one per name in order, execution stops
at the first failing request, that failure is returned wrapped, and requests
after it are never issued. -/
theorem c3_client_update (fullResult : Option String)
    (subResult : String → Option String) (subs pre post : List String)
    (s e : String) :
    clientUpdate none fullResult subResult [] = ([StoreReq.fullUpdate], fullResult)
    ∧ (subs ≠ [] → (∀ x ∈ subs, subResult x = none) →
        clientUpdate none fullResult subResult subs = (subs.map StoreReq.subUpdate, none))
    ∧ ((∀ x ∈ pre, subResult x = none) → subResult s = some e →
        clientUpdate none fullResult subResult (pre ++ s :: post) =
          ((pre ++ [s]).map StoreReq.subUpdate,
            some ("unable to update subresource " ++ s ++ ". " ++ e))) := by
  refine ⟨rfl, ?_, ?_⟩
  · intro hne h
    cases subs with
    | nil => exact absurd rfl hne
    | cons a rest =>
        simpa [clientUpdate] using updateSubresources_all_ok subResult (a :: rest) h
  · intro hpre hs
    cases pre with
    | nil => simpa [clientUpdate] using updateSubresources_first_fail subResult s e hs [] (by simp) post
    | cons a rest =>
        have := updateSubresources_first_fail subResult s e hs (a :: rest) hpre post
        simpa [clientUpdate] using this

/-- Witness for claim C3 at concrete inputs: a "status"-then-"scale" update
against a store where "scale" fails with "boom" issues both requests in
order, stops there, and wraps the failure; an all-successful single-name
update issues exactly that request; the zero-name call issues exactly the
full-object update. -/
theorem c3_client_update_witness :
    ["status"] ≠ ([] : List String)
    ∧ (∀ x ∈ ["status"], srEx x = none)
    ∧ srEx "scale" = some "boom"
    ∧ clientUpdate none none srEx [] = ([StoreReq.fullUpdate], none)
    ∧ clientUpdate none none srEx ["status"] = ([StoreReq.subUpdate "status"], none)
    ∧ clientUpdate none none srEx ["status", "scale"] =
        ([StoreReq.subUpdate "status", StoreReq.subUpdate "scale"],
          some "unable to update subresource scale. boom") := by
  have h := c3_client_update none srEx ["status"] ["status"] [] "scale" "boom"
  refine ⟨by decide, by decide, by decide, h.1, ?_, ?_⟩
  · simpa using h.2.1 (by decide) (by decide)
  · simpa using h.2.2 (by decide) (by decide)

/-- Claim C5: the first call to `Connect` on a fresh cluster sets the
`connected` flag before starting the manager and does not panic; a second
call on the resulting state panics regardless of the first call's start
result (including while the first start is still blocking, since the flag is
set before the start); and no operation of the library ever lowers the
flag back to false. -/
theorem c5_connect_once (startErr startErr2 : Option String) (op : ClusterOp)
    (st : ClusterState) :
    (connect { connected := false } startErr).1.connected = true
    ∧ (connect { connected := false } startErr).2.1 =
        [ConnectStep.setConnected, ConnectStep.managerStart]
    ∧ (connect { connected := false } startErr).2.2 =
        CallOutcome.returned (startErr.map
          (fun e => "unable to start controller-runtime.manager for kapi.cluster. " ++ e))
    ∧ (connect (connect { connected := false } startErr).1 startErr2).2.2 =
        CallOutcome.panicked "kapi.cluster.connect called more than once"
    ∧ st.connected ≤ (applyOp st op).connected := by
  refine ⟨rfl, rfl, rfl, rfl, ?_⟩
  obtain ⟨b⟩ := st
  cases op <;> cases b <;> simp [applyOp, connect]

/-- Claim C6: `AddReconciler` and `AddHook` panic when called on a cluster
on which `Connect` has been called (the post-Connect state), and called
before `Connect` they do not panic and proceed to register (AddReconciler
returning the wrapped controller-registration result, AddHook returning
nil). -/
theorem c6_registration_preconnect (ctrlErr startErr : Option String) :
    addReconciler (connect { connected := false } startErr).1 ctrlErr =
        CallOutcome.panicked "kapi.add-reconciler must be called before kapi.cluster.connect"
    ∧ addHook (connect { connected := false } startErr).1 =
        CallOutcome.panicked "kapi.add-hook must be called before kapi.cluster.connect"
    ∧ addReconciler { connected := false } ctrlErr =
        CallOutcome.returned (ctrlErr.map
          (fun e => "unable to configure kapi.reconciler. " ++ e))
    ∧ addHook { connected := false } = CallOutcome.returned none := by
  exact ⟨rfl, rfl, rfl, rfl⟩

/-- Claim C9: the update predicate installed by `AddReconciler` invokes the
filter with the event's old object (the state before the update), never the
new one; the create and delete predicates pass the event's single object. -/
theorem c9_filter_sees_old_object {O : Type} (f : ResourceEventType → O → Bool)
    (oldO newO newO2 o : O) :
    (mkEventFilter (some f)).updateFunc { objectOld := oldO, objectNew := newO } =
        f ResourceEventType.updated oldO
    ∧ (mkEventFilter (some f)).updateFunc { objectOld := oldO, objectNew := newO } =
        (mkEventFilter (some f)).updateFunc { objectOld := oldO, objectNew := newO2 }
    ∧ (mkEventFilter (some f)).createFunc o = f ResourceEventType.created o
    ∧ (mkEventFilter (some f)).deleteFunc o = f ResourceEventType.deleted o := by
  refine ⟨?_, ?_, ?_, ?_⟩ <;>
    simp [mkEventFilter, filterWithLogging_eq, effectiveFilter]

/-- Claim C10: `WithValues` and `WithName` accumulate attribute pairs on the
derived instance, leaving the parent's unchanged, but the attributes a call
passes to the underlying log function are only the per-call ones (plus the
fixed dependency pair, and for Error the error pair): the accumulated pairs
are dropped from every emission, which is also independent of the instance's
accumulated state. -/
theorem c10_scoped_attrs_dropped (l : LogrWrapper) (a attr : List String)
    (lvl : Nat) (msg err name : String) :
    (l.withValues a).attrs = l.attrs ++ a
    ∧ (l.withName name).attrs = l.attrs ++ ["name", name]
    ∧ ((l.withValues a).info lvl msg attr).attrs = attr ++ ["dep", "ctrl-runtime"]
    ∧ ((l.withValues a).error err msg attr).attrs =
        attr ++ ["error", err] ++ ["dep", "ctrl-runtime"]
    ∧ (l.withValues a).info lvl msg attr = LogrWrapper.info { attrs := [] } lvl msg attr
    ∧ (l.withValues a).error err msg attr = LogrWrapper.error { attrs := [] } err msg attr
    ∧ ((l.withValues a).info lvl msg attr).level = 2
    ∧ ((l.withValues a).error err msg attr).level = 0 := by
  refine ⟨rfl, rfl, ?_, ?_, rfl, rfl, rfl, rfl⟩ <;>
    simp [LogrWrapper.info, LogrWrapper.error, logrLf]

/-- Claim C7: hook invocations whose incoming untyped object fails the type
assertion to the hook's declared resource type return an ordinary error and
never panic, and the user-supplied callback is not invoked; for
ValidateUpdate the two assertions failing in any combination is reported as
one combined error naming both incoming types. -/
theorem c7_hook_type_assertions {T : Type} (tyName : String)
    (g : T → T → List String × Option String) (gd : T → Option String)
    (oldObj newObj obj : Untyped T) :
    (∀ f msg, validateUpdate tyName f oldObj newObj ≠ CallOutcome.panicked msg)
    ∧ (∀ f msg, defaultHook tyName f obj ≠ CallOutcome.panicked msg)
    ∧ (asTyped oldObj = none ∨ asTyped newObj = none →
        validateUpdate tyName (some g) oldObj newObj =
          CallOutcome.returned
            { warnings := []
              err := some ("update validator for custom resource was passed types of "
                ++ uTypeName tyName newObj ++ " and " ++ uTypeName tyName oldObj)
              callbackCalls := [] })
    ∧ (asTyped obj = none →
        defaultHook tyName (some gd) obj =
          CallOutcome.returned
            { warnings := []
              err := some ("defaulter for custom resource was passed type of "
                ++ uTypeName tyName obj)
              callbackCalls := [] }) := by
  refine ⟨?_, ?_, ?_, ?_⟩
  · intro f msg
    cases f with
    | none => simp [validateUpdate]
    | some g2 =>
        cases newObj <;> cases oldObj <;>
          simp [validateUpdate, asTyped]
  · intro f msg
    cases f with
    | none => simp [defaultHook]
    | some g2 =>
        cases obj <;> simp [defaultHook, asTyped]
  · intro h
    cases newObj with
    | typed tn =>
        cases oldObj with
        | typed told =>
            rcases h with h | h <;> simp [asTyped] at h
        | otherType n => rfl
    | otherType n =>
        cases oldObj <;> rfl
  · intro h
    cases obj with
    | typed t => simp [asTyped] at h
    | otherType n => rfl

/-- Witness for claim C7 at concrete inputs: a hook declared for one
resource type handed an object of another type ("Pod") returns a combined
error and makes no callback invocation, for ValidateUpdate (new object
mismatched) and for Default. -/
theorem c7_hook_type_assertions_witness :
    asTyped (Untyped.otherType (T := Nat) "Pod") = none
    ∧ validateUpdate "ConfigAudit" (some (fun (_ _ : Nat) => ([], none)))
        (Untyped.typed 0) (Untyped.otherType "Pod") =
        CallOutcome.returned
          { warnings := []
            err := some "update validator for custom resource was passed types of Pod and ConfigAudit"
            callbackCalls := ([] : List (Nat × Nat)) }
    ∧ defaultHook "ConfigAudit" (some (fun (_ : Nat) => none))
        (Untyped.otherType "Pod") =
        CallOutcome.returned
          { warnings := []
            err := some "defaulter for custom resource was passed type of Pod"
            callbackCalls := ([] : List Nat) } := by
  have h := c7_hook_type_assertions "ConfigAudit" (fun (_ _ : Nat) => ([], none))
    (fun (_ : Nat) => none) (Untyped.typed 0) (Untyped.otherType "Pod")
    (Untyped.otherType "Pod")
  refine ⟨rfl, ?_, ?_⟩
  · simpa [uTypeName] using h.2.2.1 (Or.inr rfl)
  · simpa [uTypeName] using h.2.2.2 rfl

/-- Claim C8 counterexample: for a concrete successful Get operation, the
trace-level log (the payload-carrying event) is emitted at index 3 and the
timer stop at index 4 of the event trace, so the trace log precedes the
timer stop, refuting "a trace-level log containing the full resource
payload is emitted on success after the timer stops"; moreover a failing
operation also emits the trace-level log. -/
theorem c8_counterexample :
    idxOf isTraceLog (clientOpEvents "ConfigAudit" "get" none none) = some 3
    ∧ idxOf isTimerStop (clientOpEvents "ConfigAudit" "get" none none) = some 4
    ∧ (3 : Nat) < 4
    ∧ idxOf isTraceLog (clientOpEvents "ConfigAudit" "get" none (some "boom")) = some 3 := by
  refine ⟨?_, ?_, by decide, ?_⟩ <;> rfl

/-- Claim C8 (amended): every Client operation starts its timer and emits
the summary-level log before any store call; a trace-level log carrying the
full resource payload is emitted on every completion (success or failure),
immediately before the timer stops; the timer metric is recorded last on
every completion and is labeled with the item's concrete type name and the
action name. -/
theorem c8_client_observability (typeName act : String)
    (getClientErr storeErr : Option String) :
    idxOf isSummaryLog (clientOpEvents typeName act getClientErr storeErr) = some 1
    ∧ (clientOpEvents typeName act getClientErr storeErr).head? =
        some (ObsEvent.timerStart "kapi_client")
    ∧ idxOf isStoreCall (clientOpEvents typeName act getClientErr storeErr) =
        (match getClientErr with | none => some 2 | some _ => none)
    ∧ idxOf isTraceLog (clientOpEvents typeName act getClientErr storeErr) =
        some ((clientOpEvents typeName act getClientErr storeErr).length - 2)
    ∧ idxOf isTimerStop (clientOpEvents typeName act getClientErr storeErr) =
        some ((clientOpEvents typeName act getClientErr storeErr).length - 1)
    ∧ (clientOpEvents typeName act getClientErr storeErr).getLast? =
        some (ObsEvent.timerStop [("resource_type", typeName), ("resource_action", act)]) := by
  cases getClientErr <;>
    simp [clientOpEvents, clientOp, idxOf, isSummaryLog, isStoreCall, isTraceLog,
      isTimerStop, List.getLast?]

set_option maxHeartbeats 1000000 in
/-- Helper: marshalling a `CustomResource` and unmarshalling the result into
a fresh zero value of the same instantiation reproduces the original in
every field the document carries; a payload field that omitempty leaves out
of the document comes back as the codec's zero value. -/
theorem deepCopyCR_roundtrip {S T U : Type} (cs : Codec S) (ct : Codec T)
    (cu : Codec U) (hs : cs.Faithful) (ht : ct.Faithful) (hu : cu.Faithful)
    (r : CustomResource S T U) :
    deepCopyCR cs ct cu r = some
      { kind := r.kind, apiVersion := r.apiVersion, metadata := r.metadata,
        spec := if cs.isEmptyVal r.spec then cs.zero else r.spec,
        status := if ct.isEmptyVal r.status then ct.zero else r.status,
        scale := if cu.isEmptyVal r.scale then cu.zero else r.scale } := by
  have hs2 : ∀ x, cs.dec (cs.enc x) = some x := hs
  have ht2 : ∀ x, ct.dec (ct.enc x) = some x := ht
  have hu2 : ∀ x, cu.dec (cu.enc x) = some x := hu
  obtain ⟨k, a, ⟨mn, mns⟩, sp, stt, sc⟩ := r
  simp only [deepCopyCR, encodeCR, encodeMeta, encStrField, encPayloadField]
  split_ifs <;>
    simp_all [decodeCR, decStrField, lookupField, decodeMeta, decPayloadField,
      hs2, ht2, hu2]

set_option maxHeartbeats 1000000 in
/-- Helper: a spec slot instantiated at the undefined marker with its zero
(nil) value is absent from the encoded document. -/
theorem encodeCR_undefined_spec_absent {T U : Type} (ct : Codec T) (cu : Codec U)
    (r : CustomResource (Option Unit) T U) (h : r.spec = none) :
    hasField (encodeCR undefinedCodec ct cu r) "spec" = false := by
  obtain ⟨k, a, ⟨mn, mns⟩, sp, stt, sc⟩ := r
  simp only at h
  subst h
  simp only [encodeCR, hasField, encodeMeta, encStrField, encPayloadField,
    undefinedCodec]
  split_ifs <;> simp [lookupField]

/-- Claim C4: for every Resource Envelope of any instantiation of the
spec/status/scale parameters with faithful-codec payload types (including
all-undefined), encoding then decoding into a fresh zero value of the same
instantiation — which is exactly deep-copy — yields a value equal to the
original in every field the document carries (payload fields the store's
omitempty rule left out come back as the zero value they already had to be
equal to, up to Go's emptiness notion); and a slot holding the undefined
marker (nil) is never a populated field of the encoded document nor of the
round-tripped value (shown for the spec slot; status and scale are
symmetric by the general equality, whose zero for the marker codec is
nil). -/
theorem c4_envelope_roundtrip {S T U : Type} (cs : Codec S) (ct : Codec T)
    (cu : Codec U) (hs : cs.Faithful) (ht : ct.Faithful) (hu : cu.Faithful)
    (r : CustomResource S T U) (r0 : CustomResource (Option Unit) T U) :
    deepCopyCR cs ct cu r = some
      { kind := r.kind, apiVersion := r.apiVersion, metadata := r.metadata,
        spec := if cs.isEmptyVal r.spec then cs.zero else r.spec,
        status := if ct.isEmptyVal r.status then ct.zero else r.status,
        scale := if cu.isEmptyVal r.scale then cu.zero else r.scale }
    ∧ (r0.spec = none →
        hasField (encodeCR undefinedCodec ct cu r0) "spec" = false
        ∧ (deepCopyCR undefinedCodec ct cu r0).map (fun x => x.spec) = some none) := by
  refine ⟨deepCopyCR_roundtrip cs ct cu hs ht hu r, fun h0 =>
    ⟨encodeCR_undefined_spec_absent ct cu r0 h0, ?_⟩⟩
  rw [deepCopyCR_roundtrip undefinedCodec ct cu undefinedCodec_faithful ht hu r0]
  simp [h0, undefinedCodec]

/-- Witness for claim C4 at a concrete input: the all-undefined
instantiation with a concrete envelope round-trips to itself under
deep-copy, and its spec slot is absent from the encoded document. -/
theorem c4_envelope_roundtrip_witness :
    undefinedCodec.Faithful
    ∧ crEx.spec = none
    ∧ deepCopyCR undefinedCodec undefinedCodec undefinedCodec crEx = some crEx
    ∧ hasField (encodeCR undefinedCodec undefinedCodec undefinedCodec crEx) "spec" = false := by
  have h := c4_envelope_roundtrip undefinedCodec undefinedCodec undefinedCodec
    undefinedCodec_faithful undefinedCodec_faithful undefinedCodec_faithful crEx crEx
  refine ⟨undefinedCodec_faithful, rfl, ?_, (h.2 rfl).1⟩
  simpa [crEx, undefinedCodec] using h.1
